import Mathlib

/-!
# Verification of `movement/validators/files.py`

A shallow embedding of the file validators of the `movement` repository
(`ValidFile`, `ValidHDF5`, `ValidDeepLabCutCSV`, `ValidVIAtracksCSV`),
together with theorems settling the specification claims about them.

Modelling conventions:
* Filesystem observations (`is_dir`, `exists`, access bits, suffix) are a
  record of booleans: the validators only branch on these observations.
* `attrs` runs the field validators in declaration order and the first
  `raise` aborts construction; this is an `Except` chain.
* `log_error(Err, msg)` raises an exception of class `Err` carrying a
  human-readable message; we model each raise site as a structured error
  constructor carrying the data interpolated into the message.
* Python values appearing inside dictionary-literal CSV cells are modelled
  by `PyVal` (ints, strings, and an opaque non-numeric constructor; float
  values do not occur in any claim). `int(x)` is `pyToInt?`.
* Strings are processed as `List Char`; the regex and `str` helpers used by
  the source are implemented character by character.  `\w`, `\d` and
  `str.isdigit` are modelled over their ASCII meaning, which covers all
  inputs appearing in the claims.
-/

/-- A Python value as it can appear inside a `file_attributes` /
`region_attributes` dictionary literal: an int, a str, or some other
non-numeric object (list, dict, None, ...). -/
inductive PyVal where
  | int (n : Int)
  | str (s : String)
  | nonNumeric
deriving DecidableEq, Repr

/-- Digits to the natural number they denote in base 10 (`int("00234") = 234`). -/
def digitsToNat (ds : List Char) : Nat :=
  ds.foldl (fun a c => 10 * a + (c.toNat - '0'.toNat)) 0

/-- Python `int(s)` on a string: strip whitespace, optional sign, then a
non-empty run of digits; anything else raises `ValueError` (`none`). -/
def parsePyInt (s : String) : Option Int :=
  let t := (((s.toList.dropWhile Char.isWhitespace).reverse.dropWhile
    Char.isWhitespace)).reverse
  match t with
  | [] => none
  | '+' :: ds =>
      if ds ≠ [] ∧ ds.all Char.isDigit then some (digitsToNat ds) else none
  | '-' :: ds =>
      if ds ≠ [] ∧ ds.all Char.isDigit then some (-(digitsToNat ds : Int))
      else none
  | ds =>
      if ds.all Char.isDigit then some (digitsToNat ds) else none

/-- Python `int(v)` on a `PyVal`: succeeds on ints and on integer-shaped
strings, raises (`none`) otherwise. -/
def pyToInt? : PyVal → Option Int
  | .int n => some n
  | .str s => parsePyInt s
  | .nonNumeric => none

/-- A CSV cell that is supposed to hold a stringified Python dictionary:
either it parses under `ast.literal_eval` to a dict (association list with
distinct keys — dict literals cannot produce duplicates), or it is
malformed and `literal_eval` raises. -/
inductive Cell where
  | dict (entries : List (String × PyVal))
  | malformed
deriving DecidableEq, Repr

/-- Python `d[k]` / `k in d` lookup on a parsed dict. -/
def lookupKey (d : List (String × PyVal)) (k : String) : Option PyVal :=
  (d.find? (fun p => p.1 = k)).map (fun p => p.2)

/-! ## `ValidFile`: path validation -/

/-- The filesystem facts a `ValidFile` instance observes about its path. -/
structure PathInfo where
  is_dir : Bool
  path_exists : Bool
  is_readable : Bool
  parent_writable : Bool
  suffix : String
deriving DecidableEq, Repr

/-- `expected_permission`, restricted by `validators.in_(["r","w","rw"])`. -/
inductive Permission where
  | r
  | w
  | rw
deriving DecidableEq, Repr

/-- Python `"r" in self.expected_permission`. -/
def Permission.includesRead : Permission → Bool
  | .r => true
  | .w => false
  | .rw => true

/-- Python `"w" in self.expected_permission`. -/
def Permission.includesWrite : Permission → Bool
  | .r => false
  | .w => true
  | .rw => true

/-- The exception classes `ValidFile` raises, with the data named in the
message of each raise site. -/
inductive FileErr where
  | isADirectory
  | notFound
  | alreadyExists
  | notReadable
  | parentNotWritable
  | wrongSuffix (got : String)
deriving DecidableEq, Repr

/-- `ValidFile._path_is_not_dir`. -/
def path_is_not_dir (p : PathInfo) : Except FileErr Unit :=
  if p.is_dir then .error .isADirectory else .ok ()

/-- `ValidFile._file_exists_when_expected`. -/
def file_exists_when_expected (p : PathInfo) (perm : Permission) :
    Except FileErr Unit :=
  if perm.includesRead then
    if !p.path_exists then .error .notFound else .ok ()
  else  -- expected_permission is "w"
    if p.path_exists then .error .alreadyExists else .ok ()

/-- `ValidFile._file_has_access_permissions`. -/
def file_has_access_permissions (p : PathInfo) (perm : Permission) :
    Except FileErr Unit :=
  if perm.includesRead ∧ !p.is_readable then .error .notReadable
  else if perm.includesWrite ∧ !p.parent_writable then
    .error .parentNotWritable
  else .ok ()

/-- `ValidFile._file_has_expected_suffix`. -/
def file_has_expected_suffix (p : PathInfo) (expected_suffix : List String) :
    Except FileErr Unit :=
  if expected_suffix ≠ [] ∧ p.suffix ∉ expected_suffix then
    .error (.wrongSuffix p.suffix)
  else .ok ()

/-- Constructing a `ValidFile`: `attrs` fires the four validators of the
`path` field in declaration order, aborting at the first raise. -/
def validFile (p : PathInfo) (perm : Permission)
    (expected_suffix : List String) : Except FileErr Unit := do
  path_is_not_dir p
  file_exists_when_expected p perm
  file_has_access_permissions p perm
  file_has_expected_suffix p expected_suffix

/-! ### Claims C7 and C4 -/

/-- **C7.** Directory rejection precedence: for every path that is a
directory, constructing the path validator fails with the directory-kind
error (`IsADirectoryError`) regardless of the requested mode and the
expected suffixes: the directory check runs first and later checks never
run once it raises. -/
theorem directory_rejection_precedence (p : PathInfo) (perm : Permission)
    (sfx : List String) (hdir : p.is_dir = true) :
    validFile p perm sfx = .error .isADirectory := by
  simp [validFile, path_is_not_dir, hdir, Bind.bind, Except.bind]

/-- Witness for C7: a concrete directory path is rejected as a directory
under mode `w` and a non-trivial suffix list. -/
theorem directory_rejection_precedence_witness :
    validFile ⟨true, true, true, true, ".h5"⟩ .w [".csv"]
      = .error .isADirectory :=
  directory_rejection_precedence ⟨true, true, true, true, ".h5"⟩ .w [".csv"]
    rfl

/-- **C4.** Path-validator existence check, for every non-directory path:
if the expected permission includes reading and the path does not exist,
validation fails with the not-found error; if the expected permission is
write-only and the path exists, validation fails with the already-exists
error; otherwise the existence check passes. -/
theorem file_exists_when_expected_spec (p : PathInfo) (perm : Permission)
    (sfx : List String) (hdir : p.is_dir = false) :
    (perm.includesRead = true → p.path_exists = false →
      validFile p perm sfx = .error .notFound)
    ∧ (perm = .w → p.path_exists = true →
      validFile p perm sfx = .error .alreadyExists)
    ∧ (¬(perm.includesRead = true ∧ p.path_exists = false) →
      ¬(perm = .w ∧ p.path_exists = true) →
      file_exists_when_expected p perm = .ok ()) := by
  refine ⟨fun hr hex => ?_, fun hw hex => ?_, fun h1 h2 => ?_⟩
  · simp [validFile, path_is_not_dir, hdir, file_exists_when_expected, hr,
      hex, Bind.bind, Except.bind]
  · subst hw
    simp [validFile, path_is_not_dir, hdir, file_exists_when_expected,
      Permission.includesRead, hex, Bind.bind, Except.bind]
  · cases perm <;> cases hpe : p.path_exists <;>
      simp_all [file_exists_when_expected, Permission.includesRead]

/-- Witness for C4: a concrete non-directory, non-existing path under mode
`r` fails with the not-found error, and under mode `w` the existence check
passes. -/
theorem file_exists_when_expected_spec_witness :
    validFile ⟨false, false, true, true, ".h5"⟩ .r [] = .error .notFound
    ∧ file_exists_when_expected ⟨false, false, true, true, ".h5"⟩ .w
      = .ok () :=
  ⟨(file_exists_when_expected_spec ⟨false, false, true, true, ".h5"⟩ .r []
      rfl).1 rfl rfl,
   (file_exists_when_expected_spec ⟨false, false, true, true, ".h5"⟩ .w []
      rfl).2.2 (by decide) (by decide)⟩

/-! ## `ValidHDF5`: HDF5 structural validation

`_file_is_h5` (opening the file with `h5py`) is an external-library effect;
the claims about `ValidHDF5` condition on it succeeding, i.e. on the file
opening as valid HDF5.  An opened HDF5 file is then observed only through
its top-level keys (`f.keys()`). -/

/-- The top-level view of a file that opened as valid HDF5. -/
structure H5File where
  keys : List String
deriving DecidableEq, Repr

/-- The `ValueError` of `_file_contains_expected_datasets`, carrying the
set of missing dataset names interpolated into its message. -/
inductive H5Err where
  | missingDatasets (diff : Finset String)
deriving DecidableEq

/-- `ValidHDF5._file_contains_expected_datasets`:
`diff = set(expected_datasets).difference(set(f.keys()))`, raising when
`len(diff) > 0`; the check body is skipped when `expected_datasets` is
falsy (the empty list). -/
def file_contains_expected_datasets (f : H5File)
    (expected_datasets : List String) : Except H5Err Unit :=
  if expected_datasets ≠ [] then
    let diff := expected_datasets.toFinset \ f.keys.toFinset
    if 0 < diff.card then .error (.missingDatasets diff) else .ok ()
  else .ok ()

/-- **C5.** HDF5 missing-dataset reporting, for every file that opens as
valid HDF5: if `expected_datasets` is non-empty and some expected names are
absent from the top-level keys, the check fails with an error listing
exactly the set difference (expected minus present); if `expected_datasets`
is empty or all names are present the check passes; and after success every
named dataset is present. -/
theorem hdf5_missing_dataset_reporting (f : H5File)
    (expected_datasets : List String) :
    (file_contains_expected_datasets f expected_datasets = .ok ()
      ↔ ∀ d ∈ expected_datasets, d ∈ f.keys)
    ∧ (∀ s : Finset String,
      file_contains_expected_datasets f expected_datasets
          = .error (.missingDatasets s)
        ↔ s = expected_datasets.toFinset \ f.keys.toFinset ∧ s.Nonempty) := by
  constructor
  · unfold file_contains_expected_datasets
    by_cases he : expected_datasets = []
    · simp [he]
    · rw [if_pos he]
      by_cases h0 : (expected_datasets.toFinset \ f.keys.toFinset).card = 0
      · rw [if_neg (by simp [h0])]
        constructor
        · intro _ d hd
          by_contra hnk
          have hmem : d ∈ expected_datasets.toFinset \ f.keys.toFinset := by
            simp [Finset.mem_sdiff, List.mem_toFinset, hd, hnk]
          rw [Finset.card_eq_zero.mp h0] at hmem
          simp at hmem
        · intro _
          rfl
      · have hpos : 0 < (expected_datasets.toFinset \ f.keys.toFinset).card :=
          Nat.pos_of_ne_zero h0
        rw [if_pos hpos]
        constructor
        · intro h
          simp at h
        · intro hall
          exfalso
          obtain ⟨d, hd⟩ := Finset.card_pos.mp hpos
          rw [Finset.mem_sdiff, List.mem_toFinset, List.mem_toFinset] at hd
          exact hd.2 (hall d hd.1)
  · intro s
    unfold file_contains_expected_datasets
    by_cases he : expected_datasets = []
    · subst he
      rw [if_neg (by simp)]
      constructor
      · intro h
        simp at h
      · rintro ⟨hs, hne⟩
        simp at hs
        subst hs
        exact absurd hne (by simp)
    · rw [if_pos he]
      by_cases h0 : (expected_datasets.toFinset \ f.keys.toFinset).card = 0
      · rw [if_neg (by simp [h0])]
        constructor
        · intro h
          simp at h
        · rintro ⟨hs, hne⟩
          subst hs
          exact absurd hne (by simp [Finset.card_eq_zero.mp h0])
      · have hpos : 0 < (expected_datasets.toFinset \ f.keys.toFinset).card :=
          Nat.pos_of_ne_zero h0
        rw [if_pos hpos]
        constructor
        · intro h
          have hs := (Except.error.injEq _ _).mp h
          injection hs with hs
          exact ⟨hs.symm, Finset.card_pos.mp (hs ▸ hpos)⟩
        · rintro ⟨hs, _⟩
          subst hs
          rfl

/-- Witness for C5 (the claim theorem has no top-level hypothesis, but its
conjuncts are conditionals): with keys `{x}` and expected `[x, y]`, the
check fails naming exactly `{y}`; with expected `[x]` it succeeds. -/
theorem hdf5_missing_dataset_reporting_witness :
    file_contains_expected_datasets ⟨["x"]⟩ ["x", "y"]
      = .error (.missingDatasets ({"y"} : Finset String))
    ∧ file_contains_expected_datasets ⟨["x"]⟩ ["x"] = .ok () :=
  ⟨((hdf5_missing_dataset_reporting ⟨["x"]⟩ ["x", "y"]).2
      ({"y"} : Finset String)).mpr (by decide),
   (hdf5_missing_dataset_reporting ⟨["x"]⟩ ["x"]).1.mpr (by decide)⟩

/-! ## `ValidDeepLabCutCSV`: header-signature validation

`_csv_file_contains_expected_levels` calls `f.readline()` four times and
takes `split(",")[0]` of each result.  `readline` returns each line
*including* its trailing newline, and returns `""` once the end of the
file is reached.  We model the file by its raw character content. -/

/-- The successive results of `f.readline()`: the chunks of the content
ending at each newline (newline included), plus a final chunk without a
newline if the content does not end in one. -/
def linesKN : List Char → List (List Char)
  | [] => []
  | c :: cs =>
    if c = '\n' then ['\n'] :: linesKN cs
    else
      match linesKN cs with
      | [] => [[c]]
      | l :: ls => (c :: l) :: ls

/-- `line.split(",")[0]`: everything before the first comma (the whole
line when it has no comma). -/
def splitHead (l : List Char) : List Char := l.takeWhile (fun c => c ≠ ',')

/-- `[f.readline().split(",")[0] for _ in range(4)]`: reading past the end
of the file yields `""`. -/
def top4_row_starts (content : String) : List String :=
  (List.range 4).map
    (fun i => ⟨splitHead ((linesKN content.toList).getD i [])⟩)

/-- Python `str.isdigit` (over ASCII): non-empty and all digits. -/
def pyIsDigit (s : String) : Bool :=
  !s.toList.isEmpty && s.toList.all Char.isDigit

/-- The failure modes of the DeepLabCut header check: the schema
`ValueError` raised by the code, or an `IndexError` from `[3]` were the
token list ever shorter than four entries. -/
inductive DLCErr where
  | headerMismatch
  | indexError
deriving DecidableEq, Repr

/-- The body of `_csv_file_contains_expected_levels` after the four leading
tokens are read: build `expected_levels` from
`["scorer", "bodyparts", "coords"]` by appending the 4th token if it is all
digits and inserting `"individuals"` at position 1 otherwise, then compare
with the actual tokens.  Accessing `[3]` on a list shorter than four
entries would be an `IndexError`. -/
def dlc_expected_check (tops : List String) : Except DLCErr Unit :=
  if tops.length < 4 then .error .indexError
  else
    let t4 := tops.getD 3 ""
    let expected :=
      if pyIsDigit t4 then ["scorer", "bodyparts", "coords", t4]
      else ["scorer", "individuals", "bodyparts", "coords"]
    if tops = expected then .ok () else .error .headerMismatch

/-- `ValidDeepLabCutCSV._csv_file_contains_expected_levels`. -/
def csv_file_contains_expected_levels (content : String) :
    Except DLCErr Unit :=
  dlc_expected_check (top4_row_starts content)

theorem top4_row_starts_length (content : String) :
    (top4_row_starts content).length = 4 := by
  simp [top4_row_starts]

theorem dlc_expected_check_four (t0 t1 t2 t3 : String) :
    (dlc_expected_check [t0, t1, t2, t3] = .ok ()
      ↔ (∃ d, [t0, t1, t2, t3] = ["scorer", "bodyparts", "coords", d]
          ∧ pyIsDigit d = true)
        ∨ [t0, t1, t2, t3] = ["scorer", "individuals", "bodyparts", "coords"])
    ∧ (∀ e, dlc_expected_check [t0, t1, t2, t3] = .error e
      → e = .headerMismatch) := by
  have hlen : ¬([t0, t1, t2, t3].length < 4) := by simp
  have hget : [t0, t1, t2, t3].getD 3 "" = t3 := rfl
  constructor
  · rw [dlc_expected_check, if_neg hlen]
    simp only [hget]
    by_cases hd : pyIsDigit t3 = true
    · rw [if_pos hd]
      constructor
      · intro h
        rcases ite_eq_iff.mp h with ⟨heq, _⟩ | ⟨_, hcontra⟩
        · exact .inl ⟨t3, heq, hd⟩
        · exact absurd hcontra (by simp)
      · rintro (⟨d, heq, hdd⟩ | heq)
        · have ht3 : t3 = d := by
            simpa using congrArg (fun l => l.getD 3 "") heq
          subst ht3
          rw [if_pos heq]
        · have ht3 : t3 = "coords" := by
            simpa using congrArg (fun l => l.getD 3 "") heq
          rw [ht3] at hd
          exact absurd hd (by decide)
    · rw [if_neg hd]
      constructor
      · intro h
        rcases ite_eq_iff.mp h with ⟨heq, _⟩ | ⟨_, hcontra⟩
        · exact .inr heq
        · exact absurd hcontra (by simp)
      · rintro (⟨d, heq, hdd⟩ | heq)
        · have ht3 : t3 = d := by
            simpa using congrArg (fun l => l.getD 3 "") heq
          subst ht3
          exact absurd hdd hd
        · rw [if_pos heq]
  · intro e
    rw [dlc_expected_check, if_neg hlen]
    intro h
    rcases ite_eq_iff.mp h with ⟨_, hcontra⟩ | ⟨_, heq⟩
    · exact absurd hcontra (by simp)
    · injection heq with heq
      exact heq.symm

/-- **C3.** DeepLabCut header signature: for every readable CSV file,
validation succeeds iff the four leading tokens (text before the first
comma of the results of the first four `readline` calls) equal either
`["scorer", "bodyparts", "coords", d]` with `d` all digits, or
`["scorer", "individuals", "bodyparts", "coords"]`; any other four-token
prefix raises the schema error (order-sensitive comparison). -/
theorem dlc_header_signature (content : String) :
    (csv_file_contains_expected_levels content = .ok ()
      ↔ (∃ d, top4_row_starts content = ["scorer", "bodyparts", "coords", d]
          ∧ pyIsDigit d = true)
        ∨ top4_row_starts content
          = ["scorer", "individuals", "bodyparts", "coords"])
    ∧ (∀ e, csv_file_contains_expected_levels content = .error e
      → e = .headerMismatch) := by
  have hlen := top4_row_starts_length content
  rcases htops : top4_row_starts content with _ | ⟨t0, _ | ⟨t1, _ | ⟨t2, _ | ⟨t3, rest⟩⟩⟩⟩ <;>
    rw [htops] at hlen <;> simp only [List.length] at hlen <;> try omega
  have hrest : rest = [] := by
    have : rest.length = 0 := by omega
    exact List.eq_nil_of_length_eq_zero this
  subst hrest
  rw [csv_file_contains_expected_levels, htops]
  exact dlc_expected_check_four t0 t1 t2 t3

/-- Witness for C3: the canonical single-animal and multi-animal headers
validate, and a wrong header fails with the schema error. -/
theorem dlc_header_signature_witness :
    csv_file_contains_expected_levels
      "scorer,me\nbodyparts,snout\ncoords,x\n3,0\n" = .ok ()
    ∧ csv_file_contains_expected_levels
      "scorer,me\nindividuals,a\nbodyparts,snout\ncoords,x\n" = .ok () :=
  ⟨(dlc_header_signature "scorer,me\nbodyparts,snout\ncoords,x\n3,0\n").1.mpr
      (.inl ⟨"3", by decide, by decide⟩),
   (dlc_header_signature
      "scorer,me\nindividuals,a\nbodyparts,snout\ncoords,x\n").1.mpr
      (.inr (by decide))⟩

/-- **C10.** DeepLabCut check totality on short files: for every readable
file with fewer than four lines, the token list still has exactly four
entries (reads past end of file yield `""`), so the `[3]` access is in
bounds and the check fails with the schema error, never with an
out-of-range error. -/
theorem dlc_short_file_totality (content : String)
    (h : (linesKN content.toList).length < 4) :
    (top4_row_starts content).length = 4
    ∧ csv_file_contains_expected_levels content = .error .headerMismatch := by
  refine ⟨top4_row_starts_length content, ?_⟩
  have hmk : (top4_row_starts content).getD 3 ""
      = ⟨splitHead ((linesKN content.toList).getD 3 [])⟩ := rfl
  have h3 : (linesKN content.toList).getD 3 [] = [] :=
    List.getD_eq_default _ _ (by omega)
  have ht3 : (top4_row_starts content).getD 3 "" = "" := by
    rw [hmk, h3]
    decide
  have hne : top4_row_starts content
      ≠ ["scorer", "individuals", "bodyparts", "coords"] := by
    intro hcontra
    rw [hcontra] at ht3
    exact absurd ht3 (by decide)
  have hd3 : pyIsDigit ((top4_row_starts content).getD 3 "") = false := by
    rw [ht3]
    decide
  rw [csv_file_contains_expected_levels, dlc_expected_check,
    if_neg (by rw [top4_row_starts_length]; omega)]
  simp only [hd3, Bool.false_eq_true, if_false, if_neg hne]

/-- Witness for C10: a one-line file still yields four tokens and fails
with the schema error. -/
theorem dlc_short_file_totality_witness :
    (top4_row_starts "scorer,me\n").length = 4
    ∧ csv_file_contains_expected_levels "scorer,me\n"
      = .error .headerMismatch :=
  dlc_short_file_totality "scorer,me\n" (by decide)

/-! ## `ValidVIAtracksCSV`: VIA tracks CSV validation

The checks operate on the `pandas` dataframe of the CSV body; a row is its
`filename` cell and the three dictionary-literal cells the checks read
(`file_size`, `region_count` and `region_id` are never consulted). -/

/-- One data row of a VIA tracks CSV, as read by `pd.read_csv`. -/
structure VIARow where
  filename : String
  file_attributes : Cell
  region_shape_attributes : Cell
  region_attributes : Cell
deriving DecidableEq, Repr

instance : Inhabited VIARow := ⟨⟨"", .malformed, .malformed, .malformed⟩⟩

/-- The exceptions escaping the `ValidVIAtracksCSV` checks.  The first
group are `log_error(ValueError, ...)` raises, whose messages name the
interpolated file/row/field; the last three are bare Python exceptions
(`ast.literal_eval` failures, `KeyError`, `int()` `ValueError`) escaping
from expressions outside any `try`. -/
inductive VIAErr where
  | headerMismatch (got : List String)
  | frameAttrNotCastable (filename : String) (row : Nat)
  | frameNotInFilename (filename : String) (row : Nat)
  | frameCountMismatch
  | shapeNotRect (filename : String) (row : Nat) (got : PyVal)
  | shapeParamMissing (filename : String) (row : Nat)
  | trackMissing (filename : String) (row : Nat)
  | trackNotCastable (filename : String) (row : Nat)
  | duplicateTrackIDs (filename : String)
  | malformedLiteral
  | keyError (key : String)
  | bareValueError
deriving DecidableEq, Repr

/-- Whether the raised condition carries a human-readable message naming
the offending file, row, or field (i.e. came from a `log_error` call with
an interpolated message, rather than being a bare exception). -/
def VIAErr.isDescribed : VIAErr → Bool
  | .malformedLiteral => false
  | .keyError _ => false
  | .bareValueError => false
  | _ => true

/-- `ast.literal_eval` on a dictionary-literal cell. -/
def literal_eval : Cell → Except VIAErr (List (String × PyVal))
  | .dict d => .ok d
  | .malformed => .error .malformedLiteral

/-- Regex `\w` over ASCII: letters, digits and underscore. -/
def isWordChar (c : Char) : Bool := c.isAlphanum || c = '_'

/-- Match `_(0\d*)\.\w+$` anchored so that the underscore is the head of
`cs` and the match runs to the end of the string; returns the captured
digit group.  (Greedy `\d*` is forced: backtracking to a shorter digit run
would put a digit where `\.` must match.) -/
def tryMatchHere : List Char → Option (List Char)
  | '_' :: c :: cs =>
    if c = '0' then
      match cs.dropWhile Char.isDigit with
      | '.' :: ext =>
          if ext ≠ [] ∧ ext.all isWordChar then
            some ('0' :: cs.takeWhile Char.isDigit)
          else none
      | _ => none
    else none
  | _ => none

/-- `re.search(pattern, f)`: leftmost match, trying each start position
from the left. -/
def searchFrame : List Char → Option (List Char)
  | [] => none
  | c :: cs =>
    match tryMatchHere (c :: cs) with
    | some g => some g
    | none => searchFrame cs

/-- `int(regex_match.group(1))` after `re.search(r"_(0\d*)\.\w+$", f)`. -/
def frameFromFilename (f : String) : Option Nat :=
  (searchFrame f.toList).map digitsToNat

/-- The parsed `file_attributes` dict of a row (junk `[]` on rows whose
cell does not parse; only consulted under a parse-success hypothesis). -/
def rowDict (r : VIARow) : List (String × PyVal) :=
  match r.file_attributes with
  | .dict d => d
  | .malformed => []

/-- The `frame` file attribute of a row. -/
def rowFrameVal (r : VIARow) : Option PyVal := lookupKey (rowDict r) "frame"

/-- `int(k["frame"])` on a row's file attributes. -/
def rowFrameCast (r : VIARow) : Option Int := (rowFrameVal r).bind pyToInt?

/-- The frame number a row's filename encodes, as an integer. -/
def rowFilenameFrame (r : VIARow) : Option Int :=
  (frameFromFilename r.filename).map (fun n => (n : Int))

/-- The loop `for k_i, k in enumerate(file_attributes_dicts)` appending
`int(k["frame"])`, raising the per-row schema error on the first row whose
`frame` value the `try` fails to cast (the `except` catches every
exception). -/
def framesFromAttributes :
    Nat → List (String × List (String × PyVal)) → Except VIAErr (List Int)
  | _, [] => .ok []
  | i, (fname, d) :: rest =>
    match (lookupKey d "frame").bind pyToInt? with
    | none => .error (.frameAttrNotCastable fname i)
    | some n => (fun l => n :: l) <$> framesFromAttributes (i + 1) rest

/-- The loop `for f_i, f in enumerate(df["filename"])` appending
`int(regex_match.group(1))`, raising the per-row schema error on the
first filename with no regex match. -/
def framesFromFilenames : Nat → List VIARow → Except VIAErr (List Int)
  | _, [] => .ok []
  | i, r :: rest =>
    match frameFromFilename r.filename with
    | none => .error (.frameNotInFilename r.filename i)
    | some n =>
        (fun l => ((n : Int)) :: l) <$> framesFromFilenames (i + 1) rest

/-- The extraction phase of
`ValidVIAtracksCSV.csv_file_contains_valid_frame_numbers`: parse every
`file_attributes` cell, then take the frame numbers from the `frame`
attribute when every row has one, and from the filenames otherwise. -/
def extractFrameNumbers (rows : List VIARow) : Except VIAErr (List Int) := do
  let dicts ← rows.mapM (fun r => literal_eval r.file_attributes)
  if dicts.all (fun d => (lookupKey d "frame").isSome) then
    framesFromAttributes 0 ((rows.map (fun r => r.filename)).zip dicts)
  else
    framesFromFilenames 0 rows

/-- `ValidVIAtracksCSV.csv_file_contains_valid_frame_numbers`: extraction
followed by `len(set(list_frame_numbers)) != len(df.filename.unique())`. -/
def csv_file_contains_valid_frame_numbers (rows : List VIARow) :
    Except VIAErr Unit := do
  let list_frame_numbers ← extractFrameNumbers rows
  if list_frame_numbers.toFinset.card
      ≠ (rows.map (fun r => r.filename)).toFinset.card then
    .error .frameCountMismatch
  else
    .ok ()

/-- The body of the `for row in df.itertuples()` loop of
`csv_file_contains_tracked_bboxes`: both dict cells are parsed first, then
`row_region_shape_attrs["name"]` is read (a bare `KeyError` when absent)
and the four checks run in order. -/
def bbox_row_check (i : Nat) (r : VIARow) : Except VIAErr Unit := do
  let shape ← literal_eval r.region_shape_attributes
  let attrs ← literal_eval r.region_attributes
  match lookupKey shape "name" with
  | none => .error (.keyError "name")
  | some v =>
    if v ≠ PyVal.str "rect" then .error (.shapeNotRect r.filename i v)
    else if !(["x", "y", "width", "height"].all
        (fun k => (lookupKey shape k).isSome)) then
      .error (.shapeParamMissing r.filename i)
    else
      match lookupKey attrs "track" with
      | none => .error (.trackMissing r.filename i)
      | some tv =>
        match pyToInt? tv with
        | none => .error (.trackNotCastable r.filename i)
        | some _ => .ok ()

/-- The `for row in df.itertuples()` loop with its running row index. -/
def bbox_loop : Nat → List VIARow → Except VIAErr Unit
  | _, [] => .ok ()
  | i, r :: rest => do
    bbox_row_check i r
    bbox_loop (i + 1) rest

/-- `ValidVIAtracksCSV.csv_file_contains_tracked_bboxes`. -/
def csv_file_contains_tracked_bboxes (rows : List VIARow) :
    Except VIAErr Unit :=
  bbox_loop 0 rows

/-- `int(ast.literal_eval(row.region_attributes)["track"])` with no `try`
around it: missing key is a bare `KeyError`, a non-castable value a bare
`ValueError`. -/
def track_id_of (r : VIARow) : Except VIAErr Int := do
  let d ← literal_eval r.region_attributes
  match lookupKey d "track" with
  | none => .error (.keyError "track")
  | some v =>
    match pyToInt? v with
    | none => .error .bareValueError
    | some n => .ok n

/-- `df.loc[df["filename"] == file]` and the track-ID list comprehension. -/
def track_ids_one_filename (rows : List VIARow) (file : String) :
    Except VIAErr (List Int) :=
  (rows.filter (fun r => r.filename = file)).mapM track_id_of

/-- `list(set(df.filename))`: the distinct filenames (iterated here in
first-occurrence order; the checks below do not depend on the order). -/
def dedupKeepFirst (l : List String) : List String :=
  l.foldl (fun acc x => if x ∈ acc then acc else acc ++ [x]) []

/-- The `for file in list_unique_filenames` loop: raise on the first file
whose track-ID list has fewer distinct values than entries. -/
def check_tracks_loop (rows : List VIARow) :
    List String → Except VIAErr Unit
  | [] => .ok ()
  | file :: files => do
    let ids ← track_ids_one_filename rows file
    if ids.toFinset.card ≠ ids.length then
      .error (.duplicateTrackIDs file)
    else
      check_tracks_loop rows files

/-- `ValidVIAtracksCSV.csv_file_contains_unique_track_IDs_per_filename`. -/
def csv_file_contains_unique_track_IDs_per_filename (rows : List VIARow) :
    Except VIAErr Unit :=
  check_tracks_loop rows (dedupKeepFirst (rows.map (fun r => r.filename)))

/-- The integer track IDs of the rows of one filename (well-defined under
the hypothesis that every row's track ID parses and casts). -/
def specTracks (rows : List VIARow) (file : String) : List Int :=
  (rows.filter (fun r => r.filename = file)).filterMap
    (fun r => (track_id_of r).toOption)

/-! ### Claim C2 -/

/-- **C2.** VIA frame-to-filename consistency: whenever a frame number was
successfully extracted for each row, the check raises the consistency
error iff the number of distinct frame numbers differs from the number of
distinct filenames; hence after successful validation the two counts are
equal. -/
theorem via_frame_filename_consistency (rows : List VIARow) (fns : List Int)
    (hok : extractFrameNumbers rows = .ok fns) :
    (csv_file_contains_valid_frame_numbers rows = .error .frameCountMismatch
      ↔ fns.toFinset.card ≠ (rows.map (fun r => r.filename)).toFinset.card)
    ∧ (csv_file_contains_valid_frame_numbers rows = .ok ()
      ↔ fns.toFinset.card
        = (rows.map (fun r => r.filename)).toFinset.card) := by
  unfold csv_file_contains_valid_frame_numbers
  rw [hok]
  simp only [Bind.bind, Except.bind]
  by_cases h : fns.toFinset.card
      = (rows.map (fun r => r.filename)).toFinset.card
  · rw [if_neg (not_not.mpr h)]
    simp [h]
  · rw [if_pos h]
    simp [h]

/-- Witness for C2: two rows with filename-derived frames `1` and `2` and
distinct filenames validate; two distinct filenames sharing frame `1` hit
the consistency error. -/
theorem via_frame_filename_consistency_witness :
    csv_file_contains_valid_frame_numbers
      [⟨"img_00001.png", .dict [], .dict [], .dict []⟩,
       ⟨"img_00002.png", .dict [], .dict [], .dict []⟩] = .ok ()
    ∧ csv_file_contains_valid_frame_numbers
      [⟨"a_01.png", .dict [], .dict [], .dict []⟩,
       ⟨"b_01.png", .dict [], .dict [], .dict []⟩]
      = .error .frameCountMismatch :=
  ⟨(via_frame_filename_consistency
      [⟨"img_00001.png", .dict [], .dict [], .dict []⟩,
       ⟨"img_00002.png", .dict [], .dict [], .dict []⟩] [1, 2] rfl).2.mpr
      (by decide),
   (via_frame_filename_consistency
      [⟨"a_01.png", .dict [], .dict [], .dict []⟩,
       ⟨"b_01.png", .dict [], .dict [], .dict []⟩] [1, 1] rfl).1.mpr
      (by decide)⟩

/-! ### Claim C8

`csv_file_contains_tracked_bboxes` evaluates
`row_region_shape_attrs["name"]` with no guard and parses the two
dictionary cells with no `try`: a row whose `region_shape_attributes`
lacks a `name` key escapes as a bare `KeyError`, and a malformed cell
escapes as the bare `ast.literal_eval` exception — neither carries a
message naming the offending file or row, although the class docstring
promises a `ValueError` for every file not matching the requirements. -/

/-- **C8 (refuting evaluation).** A VIA row whose `region_shape_attributes`
parses but lacks a `name` key makes the bounding-box check raise a bare
`KeyError`, and a malformed dictionary-literal cell a bare `literal_eval`
error; neither is a described error, contradicting error-message
totality. -/
theorem error_message_totality_failure :
    csv_file_contains_tracked_bboxes
      [⟨"frame_01.png", .dict [("frame", .int 1)],
        .dict [("x", .int 1), ("y", .int 2), ("width", .int 3),
          ("height", .int 4)],
        .dict [("track", .int 1)]⟩]
      = .error (.keyError "name")
    ∧ (VIAErr.keyError "name").isDescribed = false
    ∧ csv_file_contains_tracked_bboxes
      [⟨"frame_01.png", .dict [("frame", .int 1)], .malformed,
        .dict [("track", .int 1)]⟩]
      = .error .malformedLiteral
    ∧ VIAErr.malformedLiteral.isDescribed = false := by
  refine ⟨rfl, rfl, rfl, rfl⟩

/-! ### Claim C9

`ValidHDF5.path`, `ValidDeepLabCutCSV.path` and `ValidVIAtracksCSV.path`
are all declared as `field(validator=validators.instance_of(Path))` with
no converter, so `attrs` raises a `TypeError` when the argument is a
`str`; only `ValidFile.path` carries `converter=Path`. -/

/-- The Python argument passed for a `path` parameter. -/
inductive PyPathArg where
  | str (s : String)
  | path (p : String)
deriving DecidableEq, Repr

/-- The `TypeError` raised by `attrs.validators.instance_of`. -/
inductive TypeCheckErr where
  | typeError
deriving DecidableEq, Repr

/-- The `path` field as declared by `ValidHDF5`, `ValidDeepLabCutCSV` and
`ValidVIAtracksCSV`: `field(validator=validators.instance_of(Path))`, no
converter. -/
def instance_of_Path (v : PyPathArg) : Except TypeCheckErr String :=
  match v with
  | .path p => .ok p
  | .str _ => .error .typeError

/-- The `path` field as declared by `ValidFile`:
`field(converter=Path, validator=validators.instance_of(Path))` — the
converter turns a `str` into a `Path` before the validator fires. -/
def validFile_path_field (v : PyPathArg) : Except TypeCheckErr String :=
  match v with
  | .path p => .ok p
  | .str s => .ok s

/-- **C9 (counterexample).** Constructing any of the three validators with
a string path fails on the type of the path argument: the
`instance_of(Path)` check raises `TypeError` on a `str`, refuting the
claim that a string path is accepted. -/
theorem string_path_inputs_counterexample :
    instance_of_Path (.str "tracks.h5") = .error .typeError := rfl

/-- **C9 (amended).** The HDF5, DeepLabCut CSV and VIA tracks CSV
validators require a `pathlib.Path`: their shared path-field declaration
rejects every string path with a `TypeError` and accepts every `Path`;
only `ValidFile` converts a string path before validating. -/
theorem string_path_inputs_amended (s : String) :
    instance_of_Path (.str s) = .error .typeError
    ∧ instance_of_Path (.path s) = .ok s
    ∧ validFile_path_field (.str s) = .ok s :=
  ⟨rfl, rfl, rfl⟩

/-! ### Claim C1 -/

theorem mapM_literal_eval (rows : List VIARow)
    (hdict : ∀ r ∈ rows, ∃ d, r.file_attributes = Cell.dict d) :
    rows.mapM (fun r => literal_eval r.file_attributes)
      = .ok (rows.map rowDict) := by
  induction rows with
  | nil => rfl
  | cons r rest ih =>
    obtain ⟨d, hd⟩ := hdict r (by simp)
    rw [List.mapM_cons, ih (fun x hx => hdict x (by simp [hx]))]
    simp [hd, literal_eval, rowDict, Bind.bind, Except.bind, pure,
      Except.pure]

theorem framesFromAttributes_ok
    (pairs : List (String × List (String × PyVal))) (start : Nat)
    (h : ∀ p ∈ pairs, ((lookupKey p.2 "frame").bind pyToInt?).isSome = true) :
    ∃ l, framesFromAttributes start pairs = .ok l
      ∧ List.Forall₂
        (fun p n => (lookupKey p.2 "frame").bind pyToInt? = some n)
        pairs l := by
  induction pairs generalizing start with
  | nil => exact ⟨[], rfl, List.Forall₂.nil⟩
  | cons p rest ih =>
    obtain ⟨n, hn⟩ := Option.isSome_iff_exists.mp (h p (by simp))
    obtain ⟨l, hl, hf⟩ := ih (start + 1) (fun q hq => h q (by simp [hq]))
    refine ⟨n :: l, ?_, List.Forall₂.cons hn hf⟩
    obtain ⟨fname, d⟩ := p
    have hn' : (lookupKey d "frame").bind pyToInt? = some n := hn
    simp only [framesFromAttributes]
    rw [hn']
    simp [hl, Functor.map, Except.map]

theorem framesFromAttributes_err
    (pairs : List (String × List (String × PyVal))) (start i : Nat)
    (hi : i < pairs.length)
    (hbad : (lookupKey (pairs.get ⟨i, hi⟩).2 "frame").bind pyToInt? = none)
    (hfirst : ∀ j (hj : j < i),
      ((lookupKey (pairs.get ⟨j, lt_trans hj hi⟩).2 "frame").bind
        pyToInt?).isSome = true) :
    framesFromAttributes start pairs
      = .error (.frameAttrNotCastable (pairs.get ⟨i, hi⟩).1 (start + i)) := by
  induction pairs generalizing start i with
  | nil => exact absurd hi (by simp)
  | cons p rest ih =>
    cases i with
    | zero =>
      obtain ⟨fname, d⟩ := p
      have hbad' : (lookupKey d "frame").bind pyToInt? = none := hbad
      simp only [framesFromAttributes]
      rw [hbad']
      rfl
    | succ k =>
      have hk : k < rest.length := by simpa using hi
      have h0 := hfirst 0 (Nat.succ_pos k)
      obtain ⟨n, hn⟩ := Option.isSome_iff_exists.mp h0
      obtain ⟨fname, d⟩ := p
      have hn' : (lookupKey d "frame").bind pyToInt? = some n := hn
      simp only [framesFromAttributes]
      rw [hn']
      have hrec := ih (start + 1) k hk hbad
        (fun j hj => hfirst (j + 1) (Nat.succ_lt_succ hj))
      have harith : start + 1 + k = start + (k + 1) := by omega
      rw [hrec]
      simp [Functor.map, Except.map, harith]

theorem framesFromFilenames_ok (l : List VIARow) (start : Nat)
    (h : ∀ r ∈ l, (rowFilenameFrame r).isSome = true) :
    ∃ fl, framesFromFilenames start l = .ok fl
      ∧ List.Forall₂ (fun r n => rowFilenameFrame r = some n) l fl := by
  induction l generalizing start with
  | nil => exact ⟨[], rfl, List.Forall₂.nil⟩
  | cons r rest ih =>
    have h0 := h r (by simp)
    obtain ⟨n, hn⟩ : ∃ n, frameFromFilename r.filename = some n := by
      rcases hf : frameFromFilename r.filename with _ | n
      · rw [rowFilenameFrame, hf] at h0
        simp at h0
      · exact ⟨n, rfl⟩
    obtain ⟨fl, hfl, hff⟩ := ih (start + 1) (fun x hx => h x (by simp [hx]))
    refine ⟨(n : Int) :: fl, ?_,
      List.Forall₂.cons (by simp [rowFilenameFrame, hn]) hff⟩
    simp only [framesFromFilenames]
    rw [hn]
    simp [hfl, Functor.map, Except.map]

theorem framesFromFilenames_err (l : List VIARow) (start i : Nat)
    (hi : i < l.length)
    (hbad : rowFilenameFrame (l.get ⟨i, hi⟩) = none)
    (hfirst : ∀ j (hj : j < i),
      (rowFilenameFrame (l.get ⟨j, lt_trans hj hi⟩)).isSome = true) :
    framesFromFilenames start l
      = .error
        (.frameNotInFilename (l.get ⟨i, hi⟩).filename (start + i)) := by
  induction l generalizing start i with
  | nil => exact absurd hi (by simp)
  | cons r rest ih =>
    cases i with
    | zero =>
      have hb : frameFromFilename r.filename = none := by
        rcases hf : frameFromFilename r.filename with _ | n
        · rfl
        · have hbad' : rowFilenameFrame r = none := hbad
          rw [rowFilenameFrame, hf] at hbad'
          simp at hbad'
      simp only [framesFromFilenames]
      rw [hb]
      rfl
    | succ k =>
      have hk : k < rest.length := by simpa using hi
      have h0 := hfirst 0 (Nat.succ_pos k)
      obtain ⟨n, hn⟩ : ∃ n, frameFromFilename r.filename = some n := by
        rcases hf : frameFromFilename r.filename with _ | n
        · have h0' : (rowFilenameFrame r).isSome = true := h0
          rw [rowFilenameFrame, hf] at h0'
          simp at h0'
        · exact ⟨n, rfl⟩
      simp only [framesFromFilenames]
      rw [hn]
      have hrec := ih (start + 1) k hk hbad
        (fun j hj => hfirst (j + 1) (Nat.succ_lt_succ hj))
      have harith : start + 1 + k = start + (k + 1) := by omega
      rw [hrec]
      simp [Functor.map, Except.map, harith]

/-- **C1.** VIA frame-number extraction: for rows whose `file_attributes`
cells parse, if every row's dictionary contains a `frame` key then each
row's frame number is the integer cast of that value — and the per-row
schema error is raised for the first row whose `frame` value is not
castable; otherwise (some row lacks `frame`) every row's frame number is
extracted from its filename by the `_(0\d*)\.\w+$` pattern (an underscore,
a digit run with a leading zero, a dot and the extension at the end) — and
the per-row schema error is raised for the first filename with no
match. -/
theorem via_frame_number_extraction (rows : List VIARow)
    (hdict : ∀ r ∈ rows, ∃ d, r.file_attributes = Cell.dict d) :
    ((∀ r ∈ rows, (rowFrameVal r).isSome = true) →
      ((∀ r ∈ rows, (rowFrameCast r).isSome = true) →
        ∃ l, extractFrameNumbers rows = .ok l
          ∧ List.Forall₂ (fun r n => rowFrameCast r = some n) rows l)
      ∧ (∀ i, ∀ hi : i < rows.length,
        rowFrameCast (rows.get ⟨i, hi⟩) = none →
        (∀ j, ∀ hj : j < i,
          (rowFrameCast (rows.get ⟨j, lt_trans hj hi⟩)).isSome = true) →
        extractFrameNumbers rows
          = .error
            (.frameAttrNotCastable (rows.get ⟨i, hi⟩).filename i)))
    ∧ ((¬ ∀ r ∈ rows, (rowFrameVal r).isSome = true) →
      ((∀ r ∈ rows, (rowFilenameFrame r).isSome = true) →
        ∃ l, extractFrameNumbers rows = .ok l
          ∧ List.Forall₂ (fun r n => rowFilenameFrame r = some n) rows l)
      ∧ (∀ i, ∀ hi : i < rows.length,
        rowFilenameFrame (rows.get ⟨i, hi⟩) = none →
        (∀ j, ∀ hj : j < i,
          (rowFilenameFrame (rows.get ⟨j, lt_trans hj hi⟩)).isSome = true) →
        extractFrameNumbers rows
          = .error
            (.frameNotInFilename (rows.get ⟨i, hi⟩).filename i))) := by
  have hmapM := mapM_literal_eval rows hdict
  have hcond :
      ((rows.map rowDict).all (fun d => (lookupKey d "frame").isSome)) = true
        ↔ ∀ r ∈ rows, (rowFrameVal r).isSome = true := by
    rw [List.all_eq_true]
    constructor
    · intro h r hr
      exact h (rowDict r) (List.mem_map_of_mem rowDict hr)
    · intro h d hd
      rw [List.mem_map] at hd
      obtain ⟨r, hr, rfl⟩ := hd
      exact h r hr
  constructor
  · intro hall
    have hcondT := hcond.mpr hall
    constructor
    · intro hcast
      have h : ∀ p ∈ rows.map (fun r => (r.filename, rowDict r)),
          ((lookupKey p.2 "frame").bind pyToInt?).isSome = true := by
        intro p hp
        rw [List.mem_map] at hp
        obtain ⟨r, hr, rfl⟩ := hp
        exact hcast r hr
      obtain ⟨l, hl, hf⟩ := framesFromAttributes_ok _ 0 h
      refine ⟨l, ?_, ?_⟩
      · unfold extractFrameNumbers
        rw [hmapM]
        simp only [Bind.bind, Except.bind]
        rw [if_pos hcondT, List.zip_map', hl]
      · rw [List.forall₂_map_left_iff] at hf
        exact hf
    · intro i hi hbad hfirst
      unfold extractFrameNumbers
      rw [hmapM]
      simp only [Bind.bind, Except.bind]
      rw [if_pos hcondT, List.zip_map']
      have hlen : i < (rows.map (fun r => (r.filename, rowDict r))).length := by
        simpa using hi
      have hbad' : (lookupKey
          ((rows.map (fun r => (r.filename, rowDict r))).get ⟨i, hlen⟩).2
          "frame").bind pyToInt? = none := by
        rw [List.get_eq_getElem, List.getElem_map]
        exact hbad
      have hfirst' : ∀ j (hj : j < i), ((lookupKey
          ((rows.map (fun r => (r.filename, rowDict r))).get
            ⟨j, lt_trans hj hlen⟩).2 "frame").bind pyToInt?).isSome = true := by
        intro j hj
        rw [List.get_eq_getElem, List.getElem_map]
        exact hfirst j hj
      rw [framesFromAttributes_err _ 0 i hlen hbad' hfirst']
      have hfn : ((rows.map (fun r => (r.filename, rowDict r))).get
          ⟨i, hlen⟩).1 = (rows.get ⟨i, hi⟩).filename := by
        rw [List.get_eq_getElem, List.getElem_map, List.get_eq_getElem]
      rw [hfn, Nat.zero_add]
  · intro hnall
    have hcondF :
        ((rows.map rowDict).all (fun d => (lookupKey d "frame").isSome))
          = false :=
      Bool.eq_false_iff.mpr (fun h => hnall (hcond.mp h))
    constructor
    · intro hmatch
      obtain ⟨l, hl, hf⟩ := framesFromFilenames_ok rows 0 hmatch
      refine ⟨l, ?_, hf⟩
      unfold extractFrameNumbers
      rw [hmapM]
      simp only [Bind.bind, Except.bind]
      rw [if_neg (by simp [hcondF])]
      exact hl
    · intro i hi hbad hfirst
      unfold extractFrameNumbers
      rw [hmapM]
      simp only [Bind.bind, Except.bind]
      rw [if_neg (by simp [hcondF])]
      rw [framesFromFilenames_err rows 0 i hi hbad hfirst, Nat.zero_add]

/-- Witness for C1: a row whose `frame` attribute is the string `"7"`
extracts frame 7; a row without a `frame` attribute and filename
`img_00234.png` extracts frame 234 from the filename (and the raw pattern
indeed yields 234); a frame-less row with no parseable filename raises the
per-row filename error. -/
theorem via_frame_number_extraction_witness :
    (∃ l, extractFrameNumbers
        [⟨"img_00234.png", Cell.dict [("frame", PyVal.str "7")],
          Cell.dict [], Cell.dict []⟩] = .ok l
      ∧ List.Forall₂ (fun r n => rowFrameCast r = some n)
        [⟨"img_00234.png", Cell.dict [("frame", PyVal.str "7")],
          Cell.dict [], Cell.dict []⟩] l)
    ∧ (∃ l, extractFrameNumbers
        [⟨"img_00234.png", Cell.dict [], Cell.dict [], Cell.dict []⟩]
        = .ok l
      ∧ List.Forall₂ (fun r n => rowFilenameFrame r = some n)
        [⟨"img_00234.png", Cell.dict [], Cell.dict [], Cell.dict []⟩] l)
    ∧ frameFromFilename "img_00234.png" = some 234
    ∧ extractFrameNumbers
        [⟨"frame1.png", Cell.dict [], Cell.dict [], Cell.dict []⟩]
      = .error (.frameNotInFilename "frame1.png" 0) :=
  ⟨((via_frame_number_extraction _
      (by
        intro r hr
        rw [List.mem_singleton] at hr
        subst hr
        exact ⟨_, rfl⟩)).1 (by decide)).1 (by decide),
   ((via_frame_number_extraction _
      (by
        intro r hr
        rw [List.mem_singleton] at hr
        subst hr
        exact ⟨_, rfl⟩)).2 (by decide)).1 (by decide),
   by decide,
   ((via_frame_number_extraction _
      (by
        intro r hr
        rw [List.mem_singleton] at hr
        subst hr
        exact ⟨_, rfl⟩)).2 (by decide)).2 0 (by decide) (by decide)
      (fun j hj => absurd hj (Nat.not_lt_zero j))⟩

/-! ### Claim C6 -/

theorem dedup_foldl_mem (l : List String) :
    ∀ (acc : List String) (y : String),
      (y ∈ l.foldl (fun acc x => if x ∈ acc then acc else acc ++ [x]) acc)
        ↔ y ∈ acc ∨ y ∈ l := by
  induction l with
  | nil =>
    intro acc y
    simp
  | cons x xs ih =>
    intro acc y
    rw [List.foldl_cons, ih]
    by_cases hx : x ∈ acc
    · rw [if_pos hx]
      simp only [List.mem_cons]
      constructor
      · rintro (h | h)
        · exact Or.inl h
        · exact Or.inr (Or.inr h)
      · rintro (h | h | h)
        · exact Or.inl h
        · exact Or.inl (h ▸ hx)
        · exact Or.inr h
    · rw [if_neg hx]
      simp only [List.mem_append, List.mem_singleton, List.mem_cons]
      tauto

theorem mem_dedupKeepFirst (l : List String) (y : String) :
    y ∈ dedupKeepFirst l ↔ y ∈ l := by
  rw [dedupKeepFirst, dedup_foldl_mem]
  simp

theorem mapM_track_ok (l : List VIARow)
    (h : ∀ r ∈ l, ∃ n, track_id_of r = .ok n) :
    l.mapM track_id_of
      = .ok (l.filterMap (fun r => (track_id_of r).toOption)) := by
  induction l with
  | nil => rfl
  | cons r rest ih =>
    obtain ⟨n, hn⟩ := h r (by simp)
    rw [List.mapM_cons, hn, ih (fun x hx => h x (by simp [hx]))]
    simp [List.filterMap_cons, hn, Except.toOption, Bind.bind, Except.bind,
      pure, Except.pure]

theorem toFinset_card_eq_length_iff {α : Type} [DecidableEq α]
    (l : List α) : l.toFinset.card = l.length ↔ l.Nodup := by
  rw [List.card_toFinset]
  constructor
  · intro h
    have hd := List.Sublist.eq_of_length (List.dedup_sublist l) h
    rw [← hd]
    exact List.nodup_dedup l
  · intro h
    rw [List.dedup_eq_self.mpr h]

theorem check_tracks_loop_spec (rows : List VIARow)
    (h : ∀ r ∈ rows, ∃ n, track_id_of r = Except.ok n)
    (files : List String) :
    (check_tracks_loop rows files = .ok ()
      ↔ ∀ f ∈ files, (specTracks rows f).Nodup)
    ∧ (∀ e, check_tracks_loop rows files = .error e
      → ∃ f ∈ files,
        e = VIAErr.duplicateTrackIDs f ∧ ¬ (specTracks rows f).Nodup) := by
  induction files with
  | nil =>
    constructor
    · simp [check_tracks_loop]
    · intro e he
      simp [check_tracks_loop] at he
  | cons f fs ih =>
    have hids : track_ids_one_filename rows f = .ok (specTracks rows f) :=
      mapM_track_ok _ (fun r hr => h r (List.mem_of_mem_filter hr))
    by_cases hnd : (specTracks rows f).Nodup
    · have hcard : (specTracks rows f).toFinset.card
          = (specTracks rows f).length :=
        (toFinset_card_eq_length_iff _).mpr hnd
      constructor
      · simp only [check_tracks_loop, hids, Bind.bind, Except.bind]
        rw [if_neg (not_not.mpr hcard), List.forall_mem_cons]
        constructor
        · intro hok
          exact ⟨hnd, (ih.1).mp hok⟩
        · intro hall
          exact (ih.1).mpr hall.2
      · intro e he
        simp only [check_tracks_loop, hids, Bind.bind, Except.bind] at he
        rw [if_neg (not_not.mpr hcard)] at he
        obtain ⟨g, hg, hge, hgn⟩ := ih.2 e he
        exact ⟨g, List.mem_cons_of_mem f hg, hge, hgn⟩
    · have hcard : (specTracks rows f).toFinset.card
          ≠ (specTracks rows f).length :=
        fun hc => hnd ((toFinset_card_eq_length_iff _).mp hc)
      constructor
      · simp only [check_tracks_loop, hids, Bind.bind, Except.bind]
        rw [if_pos hcard]
        constructor
        · intro he
          exact absurd he (by simp)
        · intro hall
          exact absurd (hall f (List.mem_cons_self f fs)) hnd
      · intro e he
        simp only [check_tracks_loop, hids, Bind.bind, Except.bind] at he
        rw [if_pos hcard] at he
        injection he with he
        exact ⟨f, List.mem_cons_self f fs, he.symm, hnd⟩

/-- **C6.** VIA track-ID uniqueness: for rows whose `track` region
attribute parses and casts (the earlier checks passed), the uniqueness
check raises the consistency error naming an offending filename iff some
filename has two or more rows whose track attributes cast to the same
integer; otherwise validation succeeds, so after success integer track IDs
are unique within each filename. -/
theorem via_track_id_uniqueness (rows : List VIARow)
    (htrack : ∀ r ∈ rows, ∃ n, track_id_of r = Except.ok n) :
    (csv_file_contains_unique_track_IDs_per_filename rows = .ok ()
      ↔ ∀ f ∈ rows.map (fun r => r.filename), (specTracks rows f).Nodup)
    ∧ (∀ e, csv_file_contains_unique_track_IDs_per_filename rows = .error e
      → ∃ f ∈ rows.map (fun r => r.filename),
        e = VIAErr.duplicateTrackIDs f ∧ ¬ (specTracks rows f).Nodup)
    ∧ (csv_file_contains_unique_track_IDs_per_filename rows ≠ .ok ()
      ↔ ∃ f ∈ rows.map (fun r => r.filename),
        ¬ (specTracks rows f).Nodup) := by
  have hspec := check_tracks_loop_spec rows htrack
    (dedupKeepFirst (rows.map (fun r => r.filename)))
  have hmem : ∀ g, g ∈ dedupKeepFirst (rows.map (fun r => r.filename))
      ↔ g ∈ rows.map (fun r => r.filename) := fun g =>
    mem_dedupKeepFirst _ g
  have h1 : csv_file_contains_unique_track_IDs_per_filename rows = .ok ()
      ↔ ∀ f ∈ rows.map (fun r => r.filename), (specTracks rows f).Nodup := by
    rw [csv_file_contains_unique_track_IDs_per_filename, hspec.1]
    constructor
    · intro hall g hg
      exact hall g ((hmem g).mpr hg)
    · intro hall g hg
      exact hall g ((hmem g).mp hg)
  refine ⟨h1, ?_, ?_⟩
  · intro e he
    obtain ⟨g, hg, hge, hgn⟩ := hspec.2 e he
    exact ⟨g, (hmem g).mp hg, hge, hgn⟩
  · constructor
    · intro hne
      cases hres : csv_file_contains_unique_track_IDs_per_filename rows with
      | error e =>
        obtain ⟨g, hg, _, hgn⟩ := hspec.2 e hres
        exact ⟨g, (hmem g).mp hg, hgn⟩
      | ok u =>
        cases u
        exact absurd hres hne
    · rintro ⟨g, hg, hgn⟩ hok
      exact hgn (h1.mp hok g hg)

/-- Witness for C6: two rows of the same filename whose tracks cast to
the same integer (`3` and `"3"`) make the uniqueness check fail, while the
same rows under different filenames pass. -/
theorem via_track_id_uniqueness_witness :
    csv_file_contains_unique_track_IDs_per_filename
      [⟨"a.png", .dict [], .dict [], .dict [("track", .int 3)]⟩,
       ⟨"a.png", .dict [], .dict [], .dict [("track", .str "3")]⟩]
      ≠ .ok () :=
  (via_track_id_uniqueness
    [⟨"a.png", .dict [], .dict [], .dict [("track", .int 3)]⟩,
     ⟨"a.png", .dict [], .dict [], .dict [("track", .str "3")]⟩]
    (by
      intro r hr
      rw [List.mem_cons, List.mem_singleton] at hr
      rcases hr with rfl | rfl
      · exact ⟨3, rfl⟩
      · exact ⟨3, rfl⟩)).2.2.mpr
    ⟨"a.png", by decide, by decide⟩
